import Mathlib

/-!
Verification of the intelligent-claims-orchestrator business-logic layer.

Shallow embedding of the pipeline code:
- `src/icpa/payout/handlers.py` (payment service lambda),
- `src/icpa/orchestration/terminal_state_lambda.py` (terminal-state mapping),
- `src/icpa/db_client.py` (DynamoDB access: `save_claim_state` is a
  `put_item`, a whole-record replace),
- `src/icpa/ingestion/handlers.py` (per-document intake write),
- `src/icpa/context/assembler.py` (minimum-viable-context classification),
- `src/icpa/processing/handlers.py` (PHI redaction: chunking, span merge,
  bottom-up replacement),
- `src/icpa/orchestration/agent_wrapper.py` (agent output parse, normalize,
  validate, retry, fallback),
- `src/icpa/decision/handlers.py` (fraud-then-adjudication sequencing).

DynamoDB records are modelled as partial maps from attribute names to
values; Python floats that only ever carry exact decimal amounts are
modelled as rationals; text is modelled as `List Char` where character
offsets matter and as `String` elsewhere.
-/

namespace Icpa

/-! ## Claim records (DynamoDB items) -/

/-- A DynamoDB attribute value as used by the claim records: a string or a
number. The payout handler stores the final amount with `str(amount)`; the
numeric value is what the claims are about, so it is kept as a rational. -/
inductive AttrVal where
  | str (s : String)
  | num (q : ℚ)
  deriving DecidableEq, Repr

/-- A claim record (the CLAIM#uuid / META item): a partial map from attribute
names to values. An absent attribute is `none`. -/
def Record : Type := String → Option AttrVal

/-- Python `str.upper()` (character-wise upper-casing, kept kernel-reducible
by working on the underlying character list). -/
def pyUpper (s : String) : String := String.mk (s.data.map Char.toUpper)

/-- Python `str.strip()`: drop leading and trailing whitespace. -/
def pyStrip (s : String) : String :=
  String.mk (((s.data.dropWhile Char.isWhitespace).reverse.dropWhile Char.isWhitespace).reverse)

/-! ## Payment service lambda — `src/icpa/payout/handlers.py` `handler` -/

/-- Relevant fields of the EventBridge `detail` payload. `payout_gbp` is the
result of the `float(payout_gbp)` conversion: `none` when the conversion
raises `ValueError`/`TypeError` (the handler then uses the safe default 0).
`status` is `none` when the key is absent (the code defaults it to
`"review"`). -/
structure PayoutDetail where
  claim_uuid : Option String
  payout_gbp : Option ℚ
  status : Option String

/-- Return value of the payment handler: early return on missing
`claim_uuid`, the SKIPPED idempotency result, or SUCCESS with the amount
actually transferred and recorded. -/
inductive PayoutResult where
  | missingClaim
  | skipped
  | success (amount : ℚ)
  deriving DecidableEq, Repr

/-- The approve family checked by the logic guard:
`event_status not in ['APPROVED', 'APPROVE']`. -/
def approveFamily : List String := ["APPROVED", "APPROVE"]

/-- The normalized event status: `detail.get('status', 'review').upper()`. -/
def payoutEventStatus (detail : PayoutDetail) : String :=
  pyUpper (detail.status.getD "review")

/-- The amount the handler transfers and records: 0 when the float
conversion fails, else 0 when the event status is outside the approve
family (the logic guard), else the converted amount. -/
def payoutAmount (detail : PayoutDetail) : ℚ :=
  match detail.payout_gbp with
  | none => 0
  | some a => if payoutEventStatus detail ∉ approveFamily then 0 else a

/-- The `update_item` call of the payment handler:
`SET #s = :s, payout_date = :d, final_payout_gbp = :a` — exactly three
attributes are written, every other attribute keeps its stored value. -/
def payoutUpdateItem (db : Record) (payoutDate : String) (amount : ℚ) : Record :=
  fun k =>
    if k = "status" then some (.str "CLOSED_PAID")
    else if k = "payout_date" then some (.str payoutDate)
    else if k = "final_payout_gbp" then some (.num amount)
    else db k

/-- The payment-service handler on the claim record `db`: missing
`claim_uuid` returns without acting; a record already in CLOSED_PAID is
skipped (idempotency check); otherwise the guarded amount is paid and the
record is updated to CLOSED_PAID with payout date and final amount. -/
def payoutHandler (db : Record) (detail : PayoutDetail) (payoutDate : String) :
    PayoutResult × Record :=
  match detail.claim_uuid with
  | none => (.missingClaim, db)
  | some _ =>
    if db "status" = some (.str "CLOSED_PAID") then (.skipped, db)
    else
      let amount := payoutAmount detail
      (.success amount, payoutUpdateItem db payoutDate amount)

/-! ## Terminal-state lambda — `src/icpa/orchestration/terminal_state_lambda.py` -/

/-- The fixed decision-to-state table `_DECISION_TO_STATE`. -/
def DECISION_TO_STATE : List (String × String) :=
  [("APPROVE", "APPROVED"), ("APPROVED", "APPROVED"),
   ("DENY", "DENIED"), ("DENIED", "DENIED"),
   ("REJECT", "DENIED"), ("REJECTED", "DENIED"),
   ("FLAG", "FLAGGED"), ("FLAGGED", "FLAGGED")]

/-- The `_resolve_state` function: a truthy explicit state wins; otherwise
the stripped, uppercased decision is looked up in the table with the default
`"APPROVED"` (`_DECISION_TO_STATE.get(normalized, "APPROVED")`). `none`
models a Python `None` and the empty string is falsy, as in the source. -/
def resolveState (decision : Option String) (explicitState : Option String) : String :=
  if (explicitState.getD "") ≠ "" then explicitState.getD ""
  else (DECISION_TO_STATE.lookup (pyUpper (pyStrip (decision.getD "")))).getD "APPROVED"

/-! ## Database client — `src/icpa/db_client.py` `save_claim_state` -/

/-- The `save_claim_state` write. The source builds the item
`{PK, SK, state, updated_at}`, merges `metadata` over it, and calls
`put_item`, which REPLACES the stored item: the resulting record does not
depend on the previously stored record at all, so the function does not
even take the prior record as an argument. `now` is `int(time.time())`. -/
def saveClaimState (claimId state : String) (metadata : List (String × AttrVal))
    (now : ℚ) : Record :=
  fun k =>
    match metadata.lookup k with
    | some v => some v
    | none =>
      if k = "PK" then some (.str ("CLAIM#" ++ claimId))
      else if k = "SK" then some (.str "META")
      else if k = "state" then some (.str state)
      else if k = "updated_at" then some (.num now)
      else none

/-- The terminal-state lambda handler body after the claim-id guard: resolve
the state, build `metadata = {"decision": decision} if decision else None`,
and persist through `save_claim_state`. Returns the resolved state and the
record as stored. -/
def terminalStateWrite (claimId : String) (decision explicitState : Option String)
    (now : ℚ) : String × Record :=
  let state := resolveState decision explicitState
  let metadata : List (String × AttrVal) :=
    match decision with
    | some d => if d ≠ "" then [("decision", .str d)] else []
    | none => []
  (state, saveClaimState claimId state metadata now)

/-! ## Ingestion — `src/icpa/ingestion/handlers.py` `ingestion_handler` -/

/-- The per-record intake write of `ingestion_handler`:
`db.save_claim_state(claim_id, "INTAKE")`, executed unconditionally for
every arriving document record. -/
def ingestionIntakeWrite (claimId : String) (now : ℚ) : Record :=
  saveClaimState claimId "INTAKE" [] now

/-! ## Context assembler — `src/icpa/context/assembler.py`
`ContextAssembler.check_min_viable_context` -/

/-- Python substring containment `pat in hay` on character lists. -/
def strContainsSub (hay pat : List Char) : Bool :=
  hay.tails.any (fun t => pat.isPrefixOf t)

/-- Python `str.upper()` on a character list. -/
def toUpperList (s : List Char) : List Char := s.map Char.toUpper

/-- The aggregate text `" ".join([d['text'].upper() for d in self.docs])`. -/
def contextTextBlob (docs : List (List Char)) : List Char :=
  List.intercalate " ".data (docs.map toUpperList)

/-- The first-notice evidence check:
`"FNOL" in text_blob or "FIRST NOTIFICATION" in text_blob`. -/
def hasFnolKeyword (docs : List (List Char)) : Bool :=
  strContainsSub (contextTextBlob docs) "FNOL".data ||
  strContainsSub (contextTextBlob docs) "FIRST NOTIFICATION".data

/-- The monetary-total evidence check:
`"INVOICE" in text_blob or "TOTAL" in text_blob`. -/
def hasInvoiceKeyword (docs : List (List Char)) : Bool :=
  strContainsSub (contextTextBlob docs) "INVOICE".data ||
  strContainsSub (contextTextBlob docs) "TOTAL".data

/-- The `check_min_viable_context` classification over the fetched document
texts: INCOMPLETE below two documents, COMPLETE when both keyword checks
pass, PARTIAL_CONTEXT otherwise. -/
def checkMinViableContext (docs : List (List Char)) : String :=
  if docs.length < 2 then "INCOMPLETE"
  else if hasFnolKeyword docs && hasInvoiceKeyword docs then "COMPLETE"
  else "PARTIAL_CONTEXT"

/-! ## Redaction engine — `src/icpa/processing/handlers.py`
`chunk_text` and `redact_phi` -/

/-- A PHI entity as returned by the detection collaborator for one chunk:
begin offset, end offset (inclusive-exclusive, chunk-relative), entity type
and the matched text (kept for audit, unused by the algorithm). -/
structure Entity where
  beginOffset : ℕ
  endOffset : ℕ
  entityType : String
  entityText : List Char
  deriving DecidableEq

/-- An absolute redaction range (begin, end, type), an element of the
`ranges` list of `redact_phi`. -/
abbrev RSpan : Type := ℕ × ℕ × String

/-- CHUNK_SIZE: about 18KB, to stay under the detection-service limit. -/
def CHUNK_SIZE : ℕ := 18000

/-- CHUNK_OVERLAP between consecutive chunks. -/
def CHUNK_OVERLAP : ℕ := 2000

/-- The `chunk_text` loop body. A structural fuel argument keeps the
definition kernel-computable; each iteration advances `start` by
CHUNK_SIZE - CHUNK_OVERLAP = 16000 characters, so fuel `text.length + 1`
(as passed by `chunkText`) never runs out. -/
def chunkTextGo (text : List Char) : ℕ → ℕ → List (ℕ × List Char)
  | _, 0 => []
  | start, fuel + 1 =>
    if start < text.length then
      let e := min (start + CHUNK_SIZE) text.length
      let chunk := (text.drop start).take (e - start)
      if e = text.length then [(start, chunk)]
      else (start, chunk) :: chunkTextGo text (e - CHUNK_OVERLAP) fuel
    else []

/-- The `chunk_text` function: the list of (start offset, chunk text) pairs
covering the text with overlap. -/
def chunkText (text : List Char) : List (ℕ × List Char) :=
  chunkTextGo text 0 (text.length + 1)

/-- Sort the detected entities descending by begin offset
(`entities_found.sort(key=lambda x: x['BeginOffset'], reverse=True)`);
the `ranges` list is rebuilt from this order before being re-sorted
ascending, exactly as in the source. -/
def sortEntitiesDesc (es : List Entity) : List Entity :=
  List.insertionSort (fun a b => b.beginOffset ≤ a.beginOffset) es

/-- Sort the ranges ascending by start offset
(`ranges.sort(key=lambda x: x[0])`). -/
def sortRangesAsc (rs : List RSpan) : List RSpan :=
  List.insertionSort (fun a b : RSpan => a.1 ≤ b.1) rs

/-- The left-to-right merge sweep of `redact_phi` over the ascending
ranges: a range whose start lies before the current merged range's end is
merged into it (the end extends to the max of the two, the type stays the
first found); otherwise the current range is emitted and the sweep
continues from the new one. -/
def sweepMerge : RSpan → List RSpan → List RSpan
  | curr, [] => [curr]
  | curr, next :: rest =>
    if next.1 < curr.2.1 then
      sweepMerge (curr.1, max curr.2.1 next.2.1, curr.2.2) rest
    else
      curr :: sweepMerge next rest

/-- The merge step of `redact_phi`: sort the ranges ascending, then run the
sweep seeded with the first range (an empty input merges to the empty
list). -/
def mergeRanges (rs : List RSpan) : List RSpan :=
  match sortRangesAsc rs with
  | [] => []
  | r :: rest => sweepMerge r rest

/-- The placeholder `f"[REDACTED:{entity_type}]"` for one merged span. -/
def redactPlaceholder (entityType : String) : List Char :=
  ("[REDACTED:" ++ entityType ++ "]").data

/-- The bottom-up application loop
`for start, end, entity_type in reversed(merged)`: each step rewrites the
accumulated text to `text[:start] + placeholder + text[end:]`, from the
highest offsets down. -/
def applyRedactions (text : List Char) (merged : List RSpan) : List Char :=
  merged.reverse.foldl
    (fun acc s => acc.take s.1 ++ redactPlaceholder s.2.2 ++ acc.drop s.2.1) text

/-- The absolute ranges collected by `redact_phi`: every chunk is sent to
the detection collaborator `detect`, each returned entity is translated to
absolute offsets with the chunk's start offset, the collected entities are
sorted descending, and the (begin, end, type) ranges are read off. -/
def detectedRanges (detect : List Char → List Entity) (text : List Char) : List RSpan :=
  (sortEntitiesDesc
    ((chunkText text).flatMap (fun p =>
      (detect p.2).map (fun e =>
        Entity.mk (p.1 + e.beginOffset) (p.1 + e.endOffset) e.entityType e.entityText)))).map
    (fun e => (e.beginOffset, e.endOffset, e.entityType))

/-- The `redact_phi` function over an abstract per-chunk entity-detection
collaborator `detect` (the Comprehend Medical response): empty text is
returned unchanged; otherwise the detected ranges are merged and the
placeholders applied bottom-up. A collaborator error raises in the source
(fail closed) and is outside this function. -/
def redactPhi (detect : List Char → List Entity) (text : List Char) : List Char :=
  if text = [] then text
  else applyRedactions text (mergeRanges (detectedRanges detect text))

/-- Whether character position `c` of the original text is covered by the
span `s` (begin inclusive, end exclusive). -/
def coversChar (s : RSpan) (c : ℕ) : Bool := decide (s.1 ≤ c) && decide (c < s.2.1)

/-- Whether position `c` is covered by some span of the list. -/
def coveredBy (l : List RSpan) (c : ℕ) : Bool := l.any (fun s => coversChar s c)

/-- Output order of the merge sweep: a span ends at or before the next one
starts, and starts no later than it. -/
def spanBelow (a b : RSpan) : Prop := a.2.1 ≤ b.1 ∧ a.1 ≤ b.1

instance : IsTrans RSpan spanBelow :=
  ⟨fun _ _ _ hab hbc => ⟨le_trans hab.1 hbc.2, le_trans hab.2 hbc.2⟩⟩

instance : IsTotal RSpan (fun a b : RSpan => a.1 ≤ b.1) :=
  ⟨fun a b => Nat.le_total a.1 b.1⟩

instance : IsTrans RSpan (fun a b : RSpan => a.1 ≤ b.1) :=
  ⟨fun _ _ _ hab hbc => le_trans hab hbc⟩

/-- The adversarial detector of the C8 counterexample: it flags the first
character of the raw text AB, and also flags the first character of the
already-redacted output (nothing in `redact_phi` prevents the collaborator
from matching inside placeholder text). -/
def detectFlagsPlaceholder : List Char → List Entity :=
  fun ch =>
    if ch = "AB".data then [Entity.mk 0 1 "NAME" "A".data]
    else if ch = "[REDACTED:NAME]B".data then [Entity.mk 0 1 "NAME" "[".data]
    else []

/-- A detector that flags the raw text AB once and reports nothing on any
other text, in particular on the redacted output. -/
def detectOnlyRaw : List Char → List Entity :=
  fun ch => if ch = "AB".data then [Entity.mk 0 1 "NAME" "A".data] else []

/-! ## Agent wrapper — `src/icpa/orchestration/agent_wrapper.py` -/

/-- A JSON value, as produced by `json.loads` on a candidate extracted from
the model completion. -/
inductive JsonVal where
  | jnull
  | jbool (b : Bool)
  | jnum (q : ℚ)
  | jstr (s : String)
  | jarr (xs : List JsonVal)
  | jobj (fields : List (String × JsonVal))

/-- A parsed agent result object: the Python dict, as an association list
(JSON object keys are unique). -/
def AgentObj : Type := List (String × JsonVal)

/-- Python dict assignment `obj[k] = v`: replace the value of an existing
key in place, else append the new key. -/
def setKey : List (String × JsonVal) → String → JsonVal → List (String × JsonVal)
  | [], k, v => [(k, v)]
  | (k', v') :: rest, k, v =>
    if k' = k then (k, v) :: rest else (k', v') :: setKey rest k v

/-- Python truthiness of `obj.get(k)`: an absent key gives None (falsy);
null, False, 0, the empty string, the empty array and the empty object are
falsy. -/
def pyTruthy : Option JsonVal → Bool
  | none => false
  | some .jnull => false
  | some (.jbool b) => b
  | some (.jnum q) => !(decide (q = 0))
  | some (.jstr s) => !(decide (s = ""))
  | some (.jarr xs) => !xs.isEmpty
  | some (.jobj fs) => !fs.isEmpty

/-- The test `agent_type and agent_type.upper().startswith("FRAUD")` used to
dispatch fraud-agent behaviour (a None or empty agent type is falsy and is
treated as a non-fraud agent). -/
def isFraudAgentType : Option String → Bool
  | none => false
  | some t => "FRAUD".data.isPrefixOf (pyUpper t).data

/-- The decision allow-list `_ALLOWED_DECISIONS`. -/
def ALLOWED_DECISIONS : List String :=
  ["CONTINUE", "STOP", "HITL", "APPROVE", "DENY", "BLOCKED", "FLAGGED"]

/-- The `_normalize_agent_result` step: a falsy decision is replaced by the
per-agent default (CONTINUE for fraud agents, BLOCKED otherwise); for fraud
agents, a non-dict `structured_findings` becomes the empty dict and a
missing `fraud_score` is backfilled from a numeric top-level `confidence`
(Python `bool` counts as numeric; anything else gives 0.0). -/
def normalizeAgentResult (result : AgentObj) (agentType : Option String) : AgentObj :=
  let normalized :=
    if !(pyTruthy (result.lookup "decision")) then
      setKey result "decision"
        (.jstr (if isFraudAgentType agentType then "CONTINUE" else "BLOCKED"))
    else result
  if isFraudAgentType agentType then
    let findings :=
      match normalized.lookup "structured_findings" with
      | some (.jobj fs) => fs
      | _ => []
    let findings' :=
      if (findings.lookup "fraud_score").isNone then
        let score : ℚ :=
          match normalized.lookup "confidence" with
          | some (.jnum q) => q
          | some (.jbool b) => if b then 1 else 0
          | _ => 0
        setKey findings "fraud_score" (.jnum score)
      else findings
    setKey normalized "structured_findings" (.jobj findings')
  else normalized

/-- The `_validate_agent_result` step as a boolean: the decision must be a
string whose upper-casing is in the allow-list, and `structured_findings`,
when present and not null (Python None), must be an object. `false` models
the raised `ValueError`. -/
def validateAgentResult (result : AgentObj) : Bool :=
  (match result.lookup "decision" with
   | some (.jstr s) => decide (pyUpper s ∈ ALLOWED_DECISIONS)
   | _ => false) &&
  (match result.lookup "structured_findings" with
   | none => true
   | some .jnull => true
   | some (.jobj _) => true
   | some _ => false)

/-- The post-validation upper-casing
`if result.get("decision") and isinstance(result["decision"], str)`. -/
def upperDecision (result : AgentObj) : AgentObj :=
  match result.lookup "decision" with
  | some (.jstr s) => if s ≠ "" then setKey result "decision" (.jstr (pyUpper s)) else result
  | _ => result

/-- One attempt of the retry loop body on the parse outcome of the
completion text: `none` for a completion with no parseable JSON object
(`_parse_agent_result` raised), else the parsed object; the attempt
succeeds when normalize-then-validate accepts it. -/
def processCompletion (agentType : Option String) (parsed : Option AgentObj) :
    Option AgentObj :=
  match parsed with
  | none => none
  | some obj =>
    let n := normalizeAgentResult obj agentType
    if validateAgentResult n then some (upperDecision n) else none

/-- The conservative fallback synthesized when every attempt failed: fraud
agents get CONTINUE with the maximal fraud score 1.0, every other agent
gets BLOCKED. -/
def agentFallback (agentType : Option String) : AgentObj :=
  if isFraudAgentType agentType then
    [("decision", .jstr "CONTINUE"),
     ("structured_findings", .jobj [("fraud_score", .jnum 1)])]
  else
    [("decision", .jstr "BLOCKED")]

/-- The retry loop of the handler over the successive attempts (the list has
`parse_retries + 1` entries, one parse outcome per invocation): the first
accepted attempt is returned; if every attempt fails, the fallback is. -/
def agentRetryLoop (agentType : Option String) : List (Option AgentObj) → AgentObj
  | [] => agentFallback agentType
  | a :: rest =>
    match processCompletion agentType a with
    | some r => r
    | none => agentRetryLoop agentType rest

/-- The fraud score stored in the structured findings of a result object. -/
def fraudScoreOf (obj : AgentObj) : Option JsonVal :=
  match obj.lookup "structured_findings" with
  | some (.jobj fs) => fs.lookup "fraud_score"
  | _ => none

/-! ## Decision pipeline — `src/icpa/decision/handlers.py` `decision_handler` -/

/-- The fields of the fraud-agent result dict that the decision handler
reads (`none` models an absent key). -/
structure FraudResult where
  decision : Option String
  recommendation : Option String
  fraud_score : Option ℚ

/-- The adjudication-agent result field the decision handler reads. -/
structure AdjResult where
  decision : Option String

/-- The outcome of a decision-pipeline run: which agents were invoked, in
invocation order, and the decision and payout returned to the workflow. -/
structure DecisionOutcome where
  invokedAgents : List String
  decision : String
  payout_gbp : ℚ

/-- The value `rec = fraud_result.get('recommendation', fraud_result.get('decision'))`. -/
def fraudRec (fr : FraudResult) : Option String :=
  fr.recommendation <|> fr.decision

/-- The early-return (fail fast) test of the decision handler: the outer
guard `decision == 'DENY' or recommendation == 'DENY' or recommendation ==
'REVIEW'` and, inside it, `rec in ['DENY', 'REVIEW'] or
fraud_result.get('fraud_score', 0) > 0.7`. -/
def fraudEarlyReturn (fr : FraudResult) : Bool :=
  (decide (fr.decision = some "DENY") || decide (fr.recommendation = some "DENY") ||
    decide (fr.recommendation = some "REVIEW")) &&
  (decide (fraudRec fr = some "DENY") || decide (fraudRec fr = some "REVIEW") ||
    decide (fr.fraud_score.getD 0 > (0.7 : ℚ)))

/-- The decision handler after context fetch: the summarization and fraud
agents always run, in that order; when the early-return test fires the
adjudication agent is skipped and the outcome carries payout 0.0 and the
`rec`-or-REVIEW decision; otherwise the adjudication agent runs and its
decision is the outcome, with the payout taken from the extracted total only
on an APPROVE decision (`extractedTotal` is the parsed
`total_amount`/`invoice_total` fact, `none` when absent or unparseable). -/
def decisionPipeline (fraudResult : FraudResult) (adjResult : AdjResult)
    (extractedTotal : Option ℚ) : DecisionOutcome :=
  if fraudEarlyReturn fraudResult then
    { invokedAgents := ["SummarizationAgent", "FraudAgent"],
      decision := (fraudRec fraudResult).getD "REVIEW",
      payout_gbp := 0 }
  else
    { invokedAgents := ["SummarizationAgent", "FraudAgent", "AdjudicationAgent"],
      decision := (adjResult.decision).getD "REVIEW",
      payout_gbp :=
        if adjResult.decision = some "APPROVE" then extractedTotal.getD 0 else 0 }

end Icpa

namespace Icpa

/-! ## Theorems -/

/-- C1. For every finalize/payout event whose accompanying (normalized)
status is not in the approve family APPROVED/APPROVE, the payout amount the
handler transfers and records on the claim record is exactly zero,
regardless of the amount value carried by the event: when the handler does
write, the stored `final_payout_gbp` is 0, and any SUCCESS result carries
amount 0; on the skip paths the stored amount is untouched. -/
theorem payout_guard_forces_zero (db : Record) (detail : PayoutDetail) (d : String)
    (h : payoutEventStatus detail ∉ approveFamily) :
    (∀ a, (payoutHandler db detail d).1 = .success a → a = 0) ∧
    ((payoutHandler db detail d).2 "final_payout_gbp" = db "final_payout_gbp" ∨
      (payoutHandler db detail d).2 "final_payout_gbp" = some (.num 0)) := by
  have hamount : payoutAmount detail = 0 := by
    unfold payoutAmount
    cases detail.payout_gbp with
    | none => rfl
    | some a => simp [h]
  unfold payoutHandler
  cases detail.claim_uuid with
  | none => simp
  | some u =>
    by_cases hs : db "status" = some (.str "CLOSED_PAID")
    · simp [hs]
    · simp only [hs, if_false]
      constructor
      · intro a ha
        simp only [PayoutResult.success.injEq] at ha
        rw [← ha, hamount]
      · right
        simp [payoutUpdateItem, hamount]

/-- Witness for C1: a DENIED event carrying amount 999.99 against an empty
record is recorded with final amount 0. -/
theorem payout_guard_forces_zero_witness :
    payoutEventStatus ⟨some "c-1", some (99999/100), some "DENIED"⟩ ∉ approveFamily ∧
    ((∀ a, (payoutHandler (fun _ => none) ⟨some "c-1", some (99999/100), some "DENIED"⟩ "t").1 =
        .success a → a = 0) ∧
      ((payoutHandler (fun _ => none) ⟨some "c-1", some (99999/100), some "DENIED"⟩ "t").2
          "final_payout_gbp" = (fun _ => none : Record) "final_payout_gbp" ∨
        (payoutHandler (fun _ => none) ⟨some "c-1", some (99999/100), some "DENIED"⟩ "t").2
          "final_payout_gbp" = some (.num 0))) :=
  ⟨by decide,
   payout_guard_forces_zero (fun _ => none) ⟨some "c-1", some (99999/100), some "DENIED"⟩ "t"
     (by decide)⟩

/-- C2. For every claim record whose current status is already CLOSED_PAID,
a repeated finalize/payout call returns SKIPPED and leaves the claim record
unchanged: no payment result is produced and no second payout write
happens. -/
theorem payout_skip_when_closed_paid (db : Record) (detail : PayoutDetail) (d : String)
    (u : String) (hu : detail.claim_uuid = some u)
    (hs : db "status" = some (.str "CLOSED_PAID")) :
    payoutHandler db detail d = (.skipped, db) := by
  unfold payoutHandler
  rw [hu]
  simp [hs]

/-- Witness for C2: a CLOSED_PAID record is skipped and returned unchanged
by a duplicate finalize delivery. -/
theorem payout_skip_when_closed_paid_witness :
    (fun k => if k = "status" then some (AttrVal.str "CLOSED_PAID") else none : Record)
        "status" = some (.str "CLOSED_PAID") ∧
    payoutHandler
        (fun k => if k = "status" then some (AttrVal.str "CLOSED_PAID") else none)
        ⟨some "c-2", some 500, some "APPROVED"⟩ "t" =
      (.skipped, fun k => if k = "status" then some (AttrVal.str "CLOSED_PAID") else none) :=
  ⟨by decide,
   payout_skip_when_closed_paid
     (fun k => if k = "status" then some (AttrVal.str "CLOSED_PAID") else none)
     ⟨some "c-2", some 500, some "APPROVED"⟩ "t" "c-2" rfl (by decide)⟩

/-- C9 (amended). The payment-service finalize write modifies only the three
fields it owns — status, payout_date, final_payout_gbp — and every other
field of the claim record, in particular context_bundle_s3_key, has the same
value after the call as before it, on every path of the handler. (The
terminal-state lambda finalize path does NOT have this property, see the
counterexample.) -/
theorem payout_write_frame (db : Record) (detail : PayoutDetail) (d : String) (k : String)
    (h1 : k ≠ "status") (h2 : k ≠ "payout_date") (h3 : k ≠ "final_payout_gbp") :
    (payoutHandler db detail d).2 k = db k := by
  unfold payoutHandler
  cases detail.claim_uuid with
  | none => simp
  | some u =>
    by_cases hs : db "status" = some (.str "CLOSED_PAID")
    · simp [hs]
    · simp [hs, payoutUpdateItem, h1, h2, h3]

/-- Witness for C9: a finalize call on a record holding an evidence link
leaves `context_bundle_s3_key` exactly as it was. -/
theorem payout_write_frame_witness :
    ("context_bundle_s3_key" ≠ "status" ∧ "context_bundle_s3_key" ≠ "payout_date" ∧
      "context_bundle_s3_key" ≠ "final_payout_gbp") ∧
    (payoutHandler
        (fun k => if k = "context_bundle_s3_key" then some (AttrVal.str "c9/ctx.json") else none)
        ⟨some "c-9", some 120, some "APPROVED"⟩ "t").2 "context_bundle_s3_key" =
      (fun k => if k = "context_bundle_s3_key" then some (AttrVal.str "c9/ctx.json") else none :
        Record) "context_bundle_s3_key" :=
  ⟨⟨by decide, by decide, by decide⟩,
   payout_write_frame
     (fun k => if k = "context_bundle_s3_key" then some (AttrVal.str "c9/ctx.json") else none)
     ⟨some "c-9", some 120, some "APPROVED"⟩ "t" "context_bundle_s3_key"
     (by decide) (by decide) (by decide)⟩

/-- C9 counterexample. The terminal-state lambda is also a finalize call (it
persists the terminal claim state), and it does NOT preserve fields it does
not own: `save_claim_state` is a `put_item`, a whole-record replace, so a
record that held `context_bundle_s3_key = "c9/ctx.json"` before the call no
longer holds it after — refuting the claim that EVERY finalize call leaves
every non-owned field unchanged. -/
theorem terminal_write_drops_evidence_link :
    (fun k => if k = "context_bundle_s3_key" then some (AttrVal.str "c9/ctx.json")
      else if k = "status" then some (AttrVal.str "APPROVED") else none : Record)
        "context_bundle_s3_key" = some (.str "c9/ctx.json") ∧
    (terminalStateWrite "c-9" (some "APPROVE") none 1700000000).2 "context_bundle_s3_key" =
      none := by
  constructor
  · decide
  · rfl

/-- C4 (code evaluated at the failing input). `_resolve_state` does NOT
signal a configuration error for a decision outside the fixed mapping table:
the decision `"CONTINUE"` (with no explicit state) is silently defaulted to
the terminal state `"APPROVED"`, and so is the garbage decision
`"GIBBERISH"`. -/
theorem resolve_state_silently_defaults :
    DECISION_TO_STATE.lookup "CONTINUE" = none ∧
    resolveState (some "CONTINUE") none = "APPROVED" ∧
    resolveState (some "GIBBERISH") none = "APPROVED" := by
  refine ⟨by decide, ?_, ?_⟩ <;> rfl

/-- C10 (code evaluated at the failing input). The intake write of the
ingestion handler runs `save_claim_state(claim_id, "INTAKE")` for EVERY
arriving document; `save_claim_state` is a `put_item`, so the written record
is fully determined by its arguments — the prior record is not even an input
of the write. On a subsequent document arrival the claim therefore holds
state INTAKE again no matter what state it had, and every field the item
does not set (for example `context_bundle_s3_key`) is gone. -/
theorem ingestion_intake_overwrites :
    (ingestionIntakeWrite "claim-1" 1700000000) "state" = some (.str "INTAKE") ∧
    (ingestionIntakeWrite "claim-1" 1700000000) "context_bundle_s3_key" = none ∧
    ∀ now : ℚ, ∀ claimId : String,
      (ingestionIntakeWrite claimId now) "state" = some (.str "INTAKE") := by
  refine ⟨rfl, rfl, fun now claimId => rfl⟩

/-- Helper: boolean extensionality through the propositional coercions. -/
theorem bool_eq_of_iff {a b : Bool} (h : a = true ↔ b = true) : a = b := by
  cases a <;> cases b <;> simp_all

/-- Helper: coverage of a cons list of spans. -/
theorem coveredBy_cons (x : RSpan) (l : List RSpan) (c : ℕ) :
    coveredBy (x :: l) c = (coversChar x c || coveredBy l c) := rfl

/-- Helper: coverage only depends on the multiset of spans. -/
theorem coveredBy_eq_of_perm {l₁ l₂ : List RSpan} (h : l₁.Perm l₂) (c : ℕ) :
    coveredBy l₁ c = coveredBy l₂ c := by
  apply bool_eq_of_iff
  unfold coveredBy
  simp only [List.any_eq_true]
  constructor
  · rintro ⟨s, hs, hcov⟩
    exact ⟨s, h.subset hs, hcov⟩
  · rintro ⟨s, hs, hcov⟩
    exact ⟨s, h.symm.subset hs, hcov⟩

/-- Helper: the ascending sort is sorted by start offset. -/
theorem sortRangesAsc_sorted (rs : List RSpan) :
    List.Pairwise (fun a b : RSpan => a.1 ≤ b.1) (sortRangesAsc rs) :=
  List.sorted_insertionSort (fun a b : RSpan => a.1 ≤ b.1) rs

/-- Helper: the ascending sort is a permutation of its input. -/
theorem sortRangesAsc_perm (rs : List RSpan) : (sortRangesAsc rs).Perm rs :=
  List.perm_insertionSort (fun a b : RSpan => a.1 ≤ b.1) rs

/-- Helper: the sweep output is nonempty and its head starts where the
seed starts. -/
theorem sweepMerge_head (curr : RSpan) (l : List RSpan) :
    ∃ b rest, sweepMerge curr l = (curr.1, b) :: rest := by
  induction l generalizing curr with
  | nil => exact ⟨curr.2, [], rfl⟩
  | cons next rest ih =>
    unfold sweepMerge
    by_cases h : next.1 < curr.2.1
    · rw [if_pos h]
      exact ih (curr.1, max curr.2.1 next.2.1, curr.2.2)
    · rw [if_neg h]
      exact ⟨curr.2, sweepMerge next rest, rfl⟩

/-- Helper: on a start-sorted input whose elements all start at or after
the seed, the sweep emits spans in `spanBelow` chain order. -/
theorem sweepMerge_chain (curr : RSpan) (l : List RSpan)
    (hsorted : List.Pairwise (fun a b : RSpan => a.1 ≤ b.1) l)
    (hcurr : ∀ s ∈ l, curr.1 ≤ s.1) :
    List.Chain' spanBelow (sweepMerge curr l) := by
  induction l generalizing curr with
  | nil => simp [sweepMerge]
  | cons next rest ih =>
    rcases List.pairwise_cons.mp hsorted with ⟨hnext, hrest⟩
    have hcn : curr.1 ≤ next.1 := hcurr next (List.mem_cons_self next rest)
    unfold sweepMerge
    by_cases h : next.1 < curr.2.1
    · rw [if_pos h]
      exact ih (curr.1, max curr.2.1 next.2.1, curr.2.2) hrest
        (fun s hs => le_trans hcn (hnext s hs))
    · rw [if_neg h]
      have htail := ih next hrest hnext
      obtain ⟨b, rest', heq⟩ := sweepMerge_head next rest
      rw [heq] at htail ⊢
      exact List.chain'_cons.mpr ⟨⟨le_of_not_lt h, hcn⟩, htail⟩

/-- Helper: on a start-sorted input whose elements all start at or after
the seed, the sweep covers exactly the characters covered by the seed or
by the input. -/
theorem sweepMerge_coverage (curr : RSpan) (l : List RSpan)
    (hsorted : List.Pairwise (fun a b : RSpan => a.1 ≤ b.1) l)
    (hcurr : ∀ s ∈ l, curr.1 ≤ s.1) (c : ℕ) :
    coveredBy (sweepMerge curr l) c = (coversChar curr c || coveredBy l c) := by
  induction l generalizing curr with
  | nil => simp [sweepMerge, coveredBy]
  | cons next rest ih =>
    rcases List.pairwise_cons.mp hsorted with ⟨hnext, hrest⟩
    have hcn : curr.1 ≤ next.1 := hcurr next (List.mem_cons_self next rest)
    unfold sweepMerge
    by_cases h : next.1 < curr.2.1
    · rw [if_pos h]
      rw [ih (curr.1, max curr.2.1 next.2.1, curr.2.2) hrest
        (fun s hs => le_trans hcn (hnext s hs))]
      have hcover : coversChar (curr.1, max curr.2.1 next.2.1, curr.2.2) c =
          (coversChar curr c || coversChar next c) := by
        apply bool_eq_of_iff
        simp only [coversChar, Bool.and_eq_true, Bool.or_eq_true, decide_eq_true_eq]
        omega
      rw [hcover, coveredBy_cons, Bool.or_assoc]
    · rw [if_neg h]
      rw [coveredBy_cons, ih next hrest hnext, coveredBy_cons]

/-- Helper: a flat map over a list all of whose images are empty is empty. -/
theorem flatMap_empty_of_forall {α β : Type} (l : List α) (f : α → List β)
    (h : ∀ x ∈ l, f x = []) : l.flatMap f = [] := by
  induction l with
  | nil => rfl
  | cons a l ih =>
    have : (a :: l).flatMap f = f a ++ l.flatMap f := rfl
    rw [this, h a (List.mem_cons_self a l), ih (fun x hx => h x (List.mem_cons_of_mem a hx))]
    rfl

/-- Helper: the fallback object of a fraud agent. -/
theorem agentFallback_fraud (ty : Option String) (hf : isFraudAgentType ty = true) :
    agentFallback ty =
      [("decision", .jstr "CONTINUE"),
       ("structured_findings", .jobj [("fraud_score", .jnum 1)])] := by
  unfold agentFallback
  rw [hf]
  rfl

/-- Helper: the fallback object of a non-fraud (decision) agent. -/
theorem agentFallback_not_fraud (ty : Option String) (hf : isFraudAgentType ty = false) :
    agentFallback ty = [("decision", .jstr "BLOCKED")] := by
  unfold agentFallback
  rw [hf]
  rfl

/-- C3. For every agent invocation in which every attempt up to the retry
budget fails to yield a parseable, valid result object, the handler returns
the per-agent-type fallback instead of propagating the error: decision
CONTINUE with fraud score 1.0 for a fraud agent, decision BLOCKED for every
other (decision) agent — and the returned decision is never absent and
never an approval. -/
theorem agent_fallback_on_exhausted_retries (agentType : Option String)
    (attempts : List (Option AgentObj))
    (h : ∀ a ∈ attempts, processCompletion agentType a = none) :
    agentRetryLoop agentType attempts = agentFallback agentType ∧
    (isFraudAgentType agentType = true →
      (agentRetryLoop agentType attempts).lookup "decision" = some (.jstr "CONTINUE") ∧
      fraudScoreOf (agentRetryLoop agentType attempts) = some (.jnum 1)) ∧
    (isFraudAgentType agentType = false →
      (agentRetryLoop agentType attempts).lookup "decision" = some (.jstr "BLOCKED")) ∧
    (agentRetryLoop agentType attempts).lookup "decision" ≠ none ∧
    (agentRetryLoop agentType attempts).lookup "decision" ≠ some (.jstr "APPROVE") := by
  have hloop : agentRetryLoop agentType attempts = agentFallback agentType := by
    induction attempts with
    | nil => rfl
    | cons a rest ih =>
      have ha := h a (List.mem_cons_self a rest)
      have hrest : ∀ x ∈ rest, processCompletion agentType x = none :=
        fun x hx => h x (List.mem_cons_of_mem a hx)
      unfold agentRetryLoop
      rw [ha]
      exact ih hrest
  refine ⟨hloop, ?_, ?_, ?_, ?_⟩ <;> rw [hloop]
  · intro hf
    rw [agentFallback_fraud agentType hf]
    exact ⟨rfl, rfl⟩
  · intro hf
    rw [agentFallback_not_fraud agentType hf]
    rfl
  · cases hf : isFraudAgentType agentType
    · rw [agentFallback_not_fraud agentType hf]
      intro hcontra
      exact Option.noConfusion
        (show some (JsonVal.jstr "BLOCKED") = none from hcontra)
    · rw [agentFallback_fraud agentType hf]
      intro hcontra
      exact Option.noConfusion
        (show some (JsonVal.jstr "CONTINUE") = none from hcontra)
  · cases hf : isFraudAgentType agentType
    · rw [agentFallback_not_fraud agentType hf]
      intro hcontra
      have h1 : some (JsonVal.jstr "BLOCKED") = some (JsonVal.jstr "APPROVE") := hcontra
      injection h1 with h2
      injection h2 with h3
      exact absurd h3 (by decide)
    · rw [agentFallback_fraud agentType hf]
      intro hcontra
      have h1 : some (JsonVal.jstr "CONTINUE") = some (JsonVal.jstr "APPROVE") := hcontra
      injection h1 with h2
      injection h2 with h3
      exact absurd h3 (by decide)

/-- Witness for C3: the spec scenario — an adjudication agent whose single
completion contains no parseable JSON (for example the text I cannot
comply), after exhausting the retry budget, yields exactly the BLOCKED
fallback. -/
theorem agent_fallback_on_exhausted_retries_witness :
    agentRetryLoop (some "AdjudicationAgent") [none] =
      agentFallback (some "AdjudicationAgent") ∧
    (isFraudAgentType (some "AdjudicationAgent") = true →
      (agentRetryLoop (some "AdjudicationAgent") [none]).lookup "decision" =
        some (.jstr "CONTINUE") ∧
      fraudScoreOf (agentRetryLoop (some "AdjudicationAgent") [none]) = some (.jnum 1)) ∧
    (isFraudAgentType (some "AdjudicationAgent") = false →
      (agentRetryLoop (some "AdjudicationAgent") [none]).lookup "decision" =
        some (.jstr "BLOCKED")) ∧
    (agentRetryLoop (some "AdjudicationAgent") [none]).lookup "decision" ≠ none ∧
    (agentRetryLoop (some "AdjudicationAgent") [none]).lookup "decision" ≠
      some (.jstr "APPROVE") :=
  agent_fallback_on_exhausted_retries (some "AdjudicationAgent") [none]
    (fun a ha => by
      rw [List.mem_singleton] at ha
      subst ha
      rfl)

/-- Helper: the decision pipeline when the early fail-fast test fires. -/
theorem decisionPipeline_early (fr : FraudResult) (adj : AdjResult) (t : Option ℚ)
    (hf : fraudEarlyReturn fr = true) :
    decisionPipeline fr adj t =
      { invokedAgents := ["SummarizationAgent", "FraudAgent"],
        decision := (fraudRec fr).getD "REVIEW",
        payout_gbp := 0 } := by
  unfold decisionPipeline
  rw [hf]
  rfl

/-- Helper: the decision pipeline when the early fail-fast test does not fire. -/
theorem decisionPipeline_full (fr : FraudResult) (adj : AdjResult) (t : Option ℚ)
    (hf : fraudEarlyReturn fr = false) :
    decisionPipeline fr adj t =
      { invokedAgents := ["SummarizationAgent", "FraudAgent", "AdjudicationAgent"],
        decision := (adj.decision).getD "REVIEW",
        payout_gbp :=
          if adj.decision = some "APPROVE" then t.getD 0 else 0 } := by
  unfold decisionPipeline
  rw [hf]
  rfl

/-- C6 (amended). In every decision-pipeline run the fraud agent is invoked
after the summarization agent and before any adjudication: the invocation
trace is either [Summarization, Fraud] or [Summarization, Fraud,
Adjudication]. The adjudication agent is skipped exactly when the early
fail-fast test fires — the fraud decision is DENY or the recommendation is
DENY/REVIEW, and additionally the derived rec value is DENY/REVIEW or the
fraud score exceeds 0.7 — and in that case the outcome carries payout 0.0
and the rec-or-REVIEW decision; when the test does not fire (in particular
when a high fraud score comes without a DENY/REVIEW decision or
recommendation) the adjudication agent IS invoked. -/
theorem decision_pipeline_sequencing (fr : FraudResult) (adj : AdjResult) (t : Option ℚ) :
    ((decisionPipeline fr adj t).invokedAgents = ["SummarizationAgent", "FraudAgent"] ∨
      (decisionPipeline fr adj t).invokedAgents =
        ["SummarizationAgent", "FraudAgent", "AdjudicationAgent"]) ∧
    (fraudEarlyReturn fr = true →
      "AdjudicationAgent" ∉ (decisionPipeline fr adj t).invokedAgents ∧
      (decisionPipeline fr adj t).payout_gbp = 0 ∧
      (decisionPipeline fr adj t).decision = (fraudRec fr).getD "REVIEW") ∧
    (fraudEarlyReturn fr = false →
      "AdjudicationAgent" ∈ (decisionPipeline fr adj t).invokedAgents) := by
  cases hf : fraudEarlyReturn fr
  · rw [decisionPipeline_full fr adj t hf]
    refine ⟨Or.inr rfl, ?_, ?_⟩
    · intro hcontra
      exact Bool.noConfusion hcontra
    · intro _
      show "AdjudicationAgent" ∈ ["SummarizationAgent", "FraudAgent", "AdjudicationAgent"]
      decide
  · rw [decisionPipeline_early fr adj t hf]
    refine ⟨Or.inl rfl, ?_, ?_⟩
    · intro _
      refine ⟨?_, rfl, rfl⟩
      show "AdjudicationAgent" ∉ ["SummarizationAgent", "FraudAgent"]
      decide
    · intro hcontra
      exact Bool.noConfusion hcontra

/-- Counterexample for C6 as stated: a fraud result whose derived fraud
score 0.9 exceeds the 0.7 threshold but whose decision/recommendation do
not signal DENY or REVIEW (recommendation PASS) does NOT skip the
adjudication agent — the outer guard never fires, adjudication is invoked,
and its APPROVE decision releases a nonzero payout. -/
theorem fraud_score_alone_does_not_skip_adjudication :
    (FraudResult.mk none (some "PASS") (some 0.9)).fraud_score.getD 0 > (0.7 : ℚ) ∧
    "AdjudicationAgent" ∈
      (decisionPipeline (FraudResult.mk none (some "PASS") (some 0.9))
        (AdjResult.mk (some "APPROVE")) (some 100)).invokedAgents ∧
    (decisionPipeline (FraudResult.mk none (some "PASS") (some 0.9))
        (AdjResult.mk (some "APPROVE")) (some 100)).payout_gbp = 100 := by
  refine ⟨by norm_num, ?_, ?_⟩
  · have hf : fraudEarlyReturn (FraudResult.mk none (some "PASS") (some 0.9)) = false := rfl
    rw [show (decisionPipeline (FraudResult.mk none (some "PASS") (some 0.9))
        (AdjResult.mk (some "APPROVE")) (some 100)).invokedAgents =
        ["SummarizationAgent", "FraudAgent", "AdjudicationAgent"] from by
      unfold decisionPipeline
      rw [hf]
      rfl]
    decide
  · have hf : fraudEarlyReturn (FraudResult.mk none (some "PASS") (some 0.9)) = false := rfl
    unfold decisionPipeline
    rw [hf]
    rfl

/-- C5. For every collection of detected entity spans (collected from all
chunks and translated to absolute offsets), the merged span list produced by
the redaction engine is sorted ascending by start offset, pairwise
non-overlapping (no character position is covered by two merged spans), and
the set of characters covered by the merged spans equals the set of
characters covered by the raw detected spans. -/
theorem merge_ranges_spec (rs : List RSpan) :
    List.Pairwise (fun a b : RSpan => a.1 ≤ b.1) (mergeRanges rs) ∧
    List.Pairwise
      (fun a b : RSpan => ∀ c : ℕ, ¬(coversChar a c = true ∧ coversChar b c = true))
      (mergeRanges rs) ∧
    ∀ c : ℕ, coveredBy (mergeRanges rs) c = coveredBy rs c := by
  have hperm := sortRangesAsc_perm rs
  have hsorted := sortRangesAsc_sorted rs
  unfold mergeRanges
  cases hcase : sortRangesAsc rs with
  | nil =>
    rw [hcase] at hperm
    refine ⟨List.Pairwise.nil, List.Pairwise.nil, fun c => ?_⟩
    exact coveredBy_eq_of_perm hperm c
  | cons r rest =>
    rw [hcase] at hsorted hperm
    rcases List.pairwise_cons.mp hsorted with ⟨hr, hrest⟩
    have hchain := sweepMerge_chain r rest hrest hr
    have hpair : List.Pairwise spanBelow (sweepMerge r rest) :=
      (List.chain'_iff_pairwise).mp hchain
    refine ⟨hpair.imp (fun hab => hab.2), hpair.imp (fun hab c hcc => ?_), fun c => ?_⟩
    · rcases hcc with ⟨ha, hb⟩
      simp only [coversChar, Bool.and_eq_true, decide_eq_true_eq] at ha hb
      rcases hab with ⟨hend, -⟩
      omega
    · rw [sweepMerge_coverage r rest hrest hr c, ← coveredBy_cons,
        coveredBy_eq_of_perm hperm c]

/-- C8 counterexample. The code contains no guard making placeholder text
immune to a second pass: with a detection collaborator that reports a span
inside the already-redacted output (here: flagging its first character),
redacting the redacted text changes it again, so redaction is not
idempotent as a property of the code alone. -/
theorem redact_not_idempotent_for_flagging_detector :
    redactPhi detectFlagsPlaceholder "AB".data = "[REDACTED:NAME]B".data ∧
    redactPhi detectFlagsPlaceholder (redactPhi detectFlagsPlaceholder "AB".data) ≠
      redactPhi detectFlagsPlaceholder "AB".data := by
  constructor
  · decide
  · decide

/-- C8 (amended). Redacting an already-redacted text returns it unchanged
whenever the entity-detection collaborator reports no entity on any chunk
of that redacted text: idempotence of `redact_phi` holds exactly under that
(detector-dependent) condition, since the code itself never re-inspects or
protects placeholder text. -/
theorem redact_idempotent_of_detector_silent (detect : List Char → List Entity)
    (text : List Char)
    (h : ∀ p ∈ chunkText (redactPhi detect text), detect p.2 = []) :
    redactPhi detect (redactPhi detect text) = redactPhi detect text := by
  by_cases hnil : redactPhi detect text = []
  · rw [hnil]
    rfl
  · have h1 : detectedRanges detect (redactPhi detect text) = [] := by
      unfold detectedRanges
      rw [flatMap_empty_of_forall _ _ (fun p hp => by rw [h p hp]; rfl)]
      rfl
    conv_lhs => rw [redactPhi]
    rw [if_neg hnil, h1]
    rfl

/-- Witness for C8: the detector that flags only the raw text AB is silent
on the redacted output, and there a second redaction pass returns the
redacted text unchanged. -/
theorem redact_idempotent_of_detector_silent_witness :
    redactPhi detectOnlyRaw (redactPhi detectOnlyRaw "AB".data) =
      redactPhi detectOnlyRaw "AB".data :=
  redact_idempotent_of_detector_silent detectOnlyRaw "AB".data (by decide)

/-- C7. The context-status classification returns INCOMPLETE (and never
COMPLETE) for every claim with fewer than two extracted documents; it
returns COMPLETE exactly when at least two documents exist and the
aggregated uppercased text contains both a first-notice keyword and a
monetary-total keyword; and it returns PARTIAL_CONTEXT in every remaining
case. -/
theorem check_min_viable_context_spec (docs : List (List Char)) :
    (docs.length < 2 →
      checkMinViableContext docs = "INCOMPLETE" ∧ checkMinViableContext docs ≠ "COMPLETE") ∧
    (checkMinViableContext docs = "COMPLETE" ↔
      2 ≤ docs.length ∧ hasFnolKeyword docs = true ∧ hasInvoiceKeyword docs = true) ∧
    (2 ≤ docs.length → ¬(hasFnolKeyword docs = true ∧ hasInvoiceKeyword docs = true) →
      checkMinViableContext docs = "PARTIAL_CONTEXT") := by
  by_cases hlen : docs.length < 2
  · have hval : checkMinViableContext docs = "INCOMPLETE" := by
      unfold checkMinViableContext
      rw [if_pos hlen]
    refine ⟨fun _ => ⟨hval, ?_⟩, ?_, fun hge _ => absurd hge (by omega)⟩
    · rw [hval]
      decide
    · constructor
      · intro hc
        rw [hval] at hc
        exact absurd hc (by decide)
      · rintro ⟨hge, -⟩
        omega
  · have h2 : 2 ≤ docs.length := by omega
    by_cases hk : (hasFnolKeyword docs && hasInvoiceKeyword docs) = true
    · rw [Bool.and_eq_true] at hk
      have hval : checkMinViableContext docs = "COMPLETE" := by
        unfold checkMinViableContext
        rw [if_neg hlen, if_pos (by rw [hk.1, hk.2]; rfl)]
      refine ⟨fun hcontra => absurd hcontra hlen, ?_, fun _ habs => absurd hk habs⟩
      exact ⟨fun _ => ⟨h2, hk.1, hk.2⟩, fun _ => hval⟩
    · have hk' : ¬(hasFnolKeyword docs = true ∧ hasInvoiceKeyword docs = true) := by
        intro habs
        exact hk (by rw [Bool.and_eq_true]; exact habs)
      have hval : checkMinViableContext docs = "PARTIAL_CONTEXT" := by
        unfold checkMinViableContext
        rw [if_neg hlen, if_neg hk]
      refine ⟨fun hcontra => absurd hcontra hlen, ?_, fun _ _ => hval⟩
      constructor
      · intro hc
        rw [hval] at hc
        exact absurd hc (by decide)
      · rintro ⟨-, hf, hg⟩
        exact absurd ⟨hf, hg⟩ hk'

end Icpa
